import Mathlib

/-!
Verification of a FastAPI user-management service (CRUD over a single
`users` table, plus password authentication).

The development shallowly embeds the Python sources:
* `app/crud.py`   — service layer (hashing, CRUD, authentication);
* `app/main.py`   — HTTP endpoints (status codes, detail strings);
* `app/schemas.py`— Pydantic input/output schemas;
* the persistent store (SQLAlchemy session + the `app/models.py` User model)
  is modelled from the specification, since `models.py` is not part of the
  sources; the spec fixes its contract (unique email index, `is_active`
  default true, `created_at` set at insertion, `updated_at` absent until the
  first update and refreshed on every mutation, autoincrement primary key).

Timestamps are naturals; the current time is passed explicitly to every
operation that reads the clock.  Machine-level details (SQL, sessions,
HTTP parsing) are external collaborators and are represented by their
observable contracts.
-/

/-! ### SHA-256, the model of Python `hashlib.sha256(...).hexdigest()`

`app/crud.py` hashes passwords with `hashlib.sha256(password.encode()).hexdigest()`.
We implement SHA-256 over the UTF-8 bytes of the input string, producing the
lowercase hexadecimal digest, exactly as `hexdigest` does.  Words are naturals
reduced mod 2^32. -/

namespace Sha256

/-- Reduce a natural to a 32-bit word. -/
def u32 (x : Nat) : Nat := x % 4294967296

/-- Right rotation of a 32-bit word by `n`. -/
def rotr (n x : Nat) : Nat := u32 ((x >>> n) ||| (x <<< (32 - n)))

def bigSigma0 (x : Nat) : Nat := (rotr 2 x) ^^^ (rotr 13 x) ^^^ (rotr 22 x)

def bigSigma1 (x : Nat) : Nat := (rotr 6 x) ^^^ (rotr 11 x) ^^^ (rotr 25 x)

def smallSigma0 (x : Nat) : Nat := (rotr 7 x) ^^^ (rotr 18 x) ^^^ (x >>> 3)

def smallSigma1 (x : Nat) : Nat := (rotr 17 x) ^^^ (rotr 19 x) ^^^ (x >>> 10)

def ch (x y z : Nat) : Nat := (x &&& y) ^^^ ((x ^^^ 4294967295) &&& z)

def maj (x y z : Nat) : Nat := (x &&& y) ^^^ (x &&& z) ^^^ (y &&& z)

/-- The 64 round constants of FIPS 180-4 (decimal). -/
def K : List Nat :=
  [1116352408, 1899447441, 3049323471, 3921009573, 961987163, 1508970993,
   2453635748, 2870763221, 3624381080, 310598401, 607225278, 1426881987,
   1925078388, 2162078206, 2614888103, 3248222580, 3835390401, 4022224774,
   264347078, 604807628, 770255983, 1249150122, 1555081692, 1996064986,
   2554220882, 2821834349, 2952996808, 3210313671, 3336571891, 3584528711,
   113926993, 338241895, 666307205, 773529912, 1294757372, 1396182291,
   1695183700, 1986661051, 2177026350, 2456956037, 2730485921, 2820302411,
   3259730800, 3345764771, 3516065817, 3600352804, 4094571909, 275423344,
   430227734, 506948616, 659060556, 883997877, 958139571, 1322822218,
   1537002063, 1747873779, 1955562222, 2024104815, 2227730452, 2361852424,
   2428436474, 2756734187, 3204031479, 3329325298]

/-- Working state: eight 32-bit words. -/
structure Hs where
  a : Nat
  b : Nat
  c : Nat
  d : Nat
  e : Nat
  f : Nat
  g : Nat
  hh : Nat
deriving DecidableEq

/-- Initial hash value (decimal). -/
def H0 : Hs :=
  ⟨1779033703, 3144134277, 1013904242, 2773480762,
   1359893119, 2600822924, 528734635, 1541459225⟩

/-- One compression round. -/
def roundStep (k w : Nat) (s : Hs) : Hs :=
  let t1 := u32 (s.hh + bigSigma1 s.e + ch s.e s.f s.g + k + w)
  let t2 := u32 (bigSigma0 s.a + maj s.a s.b s.c)
  ⟨u32 (t1 + t2), s.a, s.b, s.c, u32 (s.d + t1), s.e, s.f, s.g⟩

/-- Message-schedule expansion of a 16-word block to 64 words. -/
def buildW (block : List Nat) : Array Nat :=
  (List.range 48).foldl
    (fun w i =>
      let j := i + 16
      w.push (u32 (smallSigma1 (w.getD (j - 2) 0) + w.getD (j - 7) 0 +
                   smallSigma0 (w.getD (j - 15) 0) + w.getD (j - 16) 0)))
    block.toArray

/-- Compress one block into the running state. -/
def compress (s0 : Hs) (ws : Array Nat) : Hs :=
  let sf := (List.range 64).foldl (fun s i => roundStep (K.getD i 0) (ws.getD i 0) s) s0
  ⟨u32 (s0.a + sf.a), u32 (s0.b + sf.b), u32 (s0.c + sf.c), u32 (s0.d + sf.d),
   u32 (s0.e + sf.e), u32 (s0.f + sf.f), u32 (s0.g + sf.g), u32 (s0.hh + sf.hh)⟩

/-- Big-endian 8-byte encoding of a length. -/
def beBytes8 (n : Nat) : List Nat :=
  [(n >>> 56) % 256, (n >>> 48) % 256, (n >>> 40) % 256, (n >>> 32) % 256,
   (n >>> 24) % 256, (n >>> 16) % 256, (n >>> 8) % 256, n % 256]

/-- SHA-256 padding: append 0x80, zeros to 56 mod 64, and the 64-bit bit length. -/
def padBytes (msg : List Nat) : List Nat :=
  let len := msg.length
  msg ++ (128 :: List.replicate ((119 - len % 64) % 64) 0) ++ beBytes8 (8 * len)

/-- Pack bytes into big-endian 32-bit words. -/
def bytesToWords : List Nat → List Nat
  | b0 :: b1 :: b2 :: b3 :: rest =>
      (b0 * 16777216 + b1 * 65536 + b2 * 256 + b3) :: bytesToWords rest
  | _ => []

/-- Split a word list into 16-word blocks (a padded message is always a
whole number of blocks, so the fall-through case only sees `[]`). -/
def chunk16 : List Nat → List (List Nat)
  | w0 :: w1 :: w2 :: w3 :: w4 :: w5 :: w6 :: w7 ::
    w8 :: w9 :: w10 :: w11 :: w12 :: w13 :: w14 :: w15 :: rest =>
      [w0, w1, w2, w3, w4, w5, w6, w7, w8, w9, w10, w11, w12, w13, w14, w15] :: chunk16 rest
  | _ => []

/-- The SHA-256 state after absorbing a byte string. -/
def hashBytes (msg : List Nat) : Hs :=
  (chunk16 (bytesToWords (padBytes msg))).foldl (fun s b => compress s (buildW b)) H0

/-- Lowercase hexadecimal digit. -/
def hexChar (n : Nat) : Char :=
  if n < 10 then Char.ofNat (48 + n) else Char.ofNat (87 + n)

/-- Eight hex characters of a 32-bit word, big-endian. -/
def wordToHex (w : Nat) : List Char :=
  [hexChar ((w >>> 28) % 16), hexChar ((w >>> 24) % 16), hexChar ((w >>> 20) % 16),
   hexChar ((w >>> 16) % 16), hexChar ((w >>> 12) % 16), hexChar ((w >>> 8) % 16),
   hexChar ((w >>> 4) % 16), hexChar (w % 16)]

/-- Hex digest of a state. -/
def digestHex (s : Hs) : String :=
  String.mk (wordToHex s.a ++ wordToHex s.b ++ wordToHex s.c ++ wordToHex s.d ++
             wordToHex s.e ++ wordToHex s.f ++ wordToHex s.g ++ wordToHex s.hh)

/-- UTF-8 encoding of one character, the model of Python `str.encode()`. -/
def encodeChar (c : Char) : List Nat :=
  let n := c.toNat
  if n < 128 then [n]
  else if n < 2048 then [192 + n / 64, 128 + n % 64]
  else if n < 65536 then [224 + n / 4096, 128 + (n / 64) % 64, 128 + n % 64]
  else [240 + n / 262144, 128 + (n / 4096) % 64, 128 + (n / 64) % 64, 128 + n % 64]

/-- UTF-8 bytes of a string. -/
def utf8Bytes (s : String) : List Nat := (s.data.map encodeChar).flatten

/-- `hashlib.sha256(s.encode()).hexdigest()`. -/
def sha256hex (s : String) : String := digestHex (hashBytes (utf8Bytes s))

end Sha256

/-! ### Schemas (`app/schemas.py`)

Pydantic models.  `Optional` fields of `UserUpdate` use `Option`, where
`none` means the field was not supplied in the request body (Pydantic's
`exclude_unset` semantics).  `EmailStr` validation happens before the
handlers run and is external; emails are plain strings here. -/

namespace Schemas

/-- `schemas.UserCreate`: input for user creation and for login. -/
structure UserCreate where
  email : String
  password : String
deriving DecidableEq

/-- `schemas.UserUpdate`: partial update body. -/
structure UserUpdate where
  email : Option String := none
  password : Option String := none
  is_active : Option Bool := none
deriving DecidableEq

/-- `schemas.User`: the output representation.  Its fields are exactly
`id`, `email`, `is_active`, `created_at`, `updated_at`; in particular it has
no `hashed_password` and no `password` field. -/
structure User where
  id : Nat
  email : String
  is_active : Bool
  created_at : Nat
  updated_at : Option Nat
deriving DecidableEq

/-- `schemas.UsersListResponse`. -/
structure UsersListResponse where
  message : String
  users : List User
  total : Nat
deriving DecidableEq

end Schemas

/-! ### The store (`app/models.py` + SQLAlchemy session)

The ORM model file itself is not among the sources; its contract is fixed by
the specification (§3, §4.1) and exercised by the test suite. -/

namespace Models

/-- Modelled from the spec: the `models.User` ORM row (`app/models.py` is
absent from the sources).  §3 fixes its columns: system-assigned unique
`id`, unique required `email`, required `hashed_password`, `is_active`
defaulting to true, immutable `created_at`, and `updated_at` absent until
the first update. -/
structure User where
  id : Nat
  email : String
  hashed_password : String
  is_active : Bool
  created_at : Nat
  updated_at : Option Nat
deriving DecidableEq

end Models

/-- The persisted table: rows in insertion (primary-key) order, plus the
next autoincrement id. -/
structure DB where
  users : List Models.User
  next_id : Nat
deriving DecidableEq

/-- Store-level errors surfaced by the database engine. -/
inductive CrudError where
  | uniqueConstraintViolation
deriving DecidableEq

/-- Modelled from the spec: store `insert` (§4.1); the unique index on
`email` and the column defaults live in the absent `app/models.py`.  On a
duplicate email the engine rejects the row (`UniqueConstraintViolation`);
otherwise the row gets a fresh id, `created_at := now`, `is_active := true`,
`updated_at := none`, and is appended in primary-key order. -/
def DB.insert (db : DB) (email hashed : String) (now : Nat) :
    Except CrudError (Models.User × DB) :=
  if db.users.any (fun u => u.email == email) then
    .error .uniqueConstraintViolation
  else
    let u : Models.User :=
      { id := db.next_id, email := email, hashed_password := hashed,
        is_active := true, created_at := now, updated_at := none }
    .ok (u, { users := db.users ++ [u], next_id := db.next_id + 1 })

/-! ### Service layer (`app/crud.py`) -/

namespace Crud

/-- `crud.hash_password`: `hashlib.sha256(password.encode()).hexdigest()`. -/
def hash_password (password : String) : String := Sha256.sha256hex password

/-- `crud.verify_password`. -/
def verify_password (plain_password hashed_password : String) : Bool :=
  hash_password plain_password == hashed_password

/-- `crud.get_user_by_id`: first row with the given primary key. -/
def get_user_by_id (db : DB) (user_id : Nat) : Option Models.User :=
  db.users.find? (fun u => u.id == user_id)

/-- `crud.get_user_by_email`: first row with the given email. -/
def get_user_by_email (db : DB) (email : String) : Option Models.User :=
  db.users.find? (fun u => u.email == email)

/-- `crud.get_users`: `offset(skip).limit(limit)` in primary-key order. -/
def get_users (db : DB) (skip limit : Nat) : List Models.User :=
  (db.users.drop skip).take limit

/-- `crud.get_users_count`. -/
def get_users_count (db : DB) : Nat := db.users.length

/-- `crud.create_user`: hash the password, then insert (the commit surfaces
the store's uniqueness violation; on failure the transaction leaves the
table unchanged). -/
def create_user (db : DB) (user : Schemas.UserCreate) (now : Nat) :
    Except CrudError (Models.User × DB) :=
  DB.insert db user.email (hash_password user.password) now

/-- `crud.update_user`: look the row up; apply exactly the fields set in the
partial update, hashing a supplied plaintext `password` into
`hashed_password` (the plaintext key is popped, so no plaintext is ever
written); then commit.  The refreshed `updated_at := now` is modelled from
the spec (§3, §4.1): the timestamp column configuration lives in the absent
`app/models.py`. -/
def update_user (db : DB) (user_id : Nat) (user_update : Schemas.UserUpdate)
    (now : Nat) : Option (Models.User × DB) :=
  match get_user_by_id db user_id with
  | none => none
  | some u =>
      let u1 := match user_update.email with
                | some e => { u with email := e }
                | none => u
      let u2 := match user_update.password with
                | some p => { u1 with hashed_password := hash_password p }
                | none => u1
      let u3 := match user_update.is_active with
                | some b => { u2 with is_active := b }
                | none => u2
      let u4 := { u3 with updated_at := some now }
      some (u4, { db with users := db.users.map (fun v => if v.id == user_id then u4 else v) })

/-- `crud.delete_user`: look the row up; absent ids report `false` and leave
the table alone, otherwise the row is deleted and `true` is returned. -/
def delete_user (db : DB) (user_id : Nat) : Bool × DB :=
  match get_user_by_id db user_id with
  | none => (false, db)
  | some _ => (true, { db with users := db.users.filter (fun u => u.id != user_id) })

/-- `crud.authenticate_user`: find by email, then verify the password; the
`is_active` flag is not consulted. -/
def authenticate_user (db : DB) (email password : String) : Option Models.User :=
  match get_user_by_email db email with
  | none => none
  | some user =>
      if verify_password password user.hashed_password then some user else none

end Crud

/-! ### HTTP surface (`app/main.py`)

Each handler is a function from the request data (and the current table) to
either an `HttpError` — the `HTTPException` it raises — or its success
payload.  Serialization through `response_model=schemas.User` keeps exactly
the fields of `Schemas.User`, dropping `hashed_password`. -/

/-- An `HTTPException`: status code and detail string. -/
structure HttpError where
  status : Nat
  detail : String
deriving DecidableEq

/-- FastAPI's `response_model=schemas.User` serialization: the row projected
onto the output schema (`model_config from_attributes`). -/
def Models.User.toSchema (u : Models.User) : Schemas.User :=
  { id := u.id, email := u.email, is_active := u.is_active,
    created_at := u.created_at, updated_at := u.updated_at }

namespace Api

/-- `POST /users/` (`main.create_user`, success status 201): pre-check the
email, then delegate to `crud.create_user`.  An `IntegrityError` escaping
the pre-checked insert is uncaught and becomes the framework's 500. -/
def create_user (db : DB) (user : Schemas.UserCreate) (now : Nat) :
    Except HttpError (Schemas.User × DB) :=
  match Crud.get_user_by_email db user.email with
  | some _ => .error ⟨400, "Email already registered"⟩
  | none =>
      match Crud.create_user db user now with
      | .error _ => .error ⟨500, "Internal Server Error"⟩
      | .ok (u, db2) => .ok (u.toSchema, db2)

/-- `GET /users/` (`main.get_users`): the query validation `ge=0` is carried
by `Nat`; `limit` outside `1..1000` is rejected by the framework with 422
before the handler runs. -/
def get_users (db : DB) (skip limit : Nat) :
    Except HttpError Schemas.UsersListResponse :=
  if limit < 1 || 1000 < limit then .error ⟨422, "Unprocessable Entity"⟩
  else
    let users := Crud.get_users db skip limit
    .ok { message := "Retrieved " ++ toString users.length ++ " users",
          users := users.map Models.User.toSchema,
          total := Crud.get_users_count db }

/-- `GET /users/{user_id}` (`main.get_user`). -/
def get_user (db : DB) (user_id : Nat) : Except HttpError Schemas.User :=
  match Crud.get_user_by_id db user_id with
  | none => .error ⟨404, "User not found"⟩
  | some u => .ok u.toSchema

/-- The pre-check of `main.update_user`: `if user_update.email:` followed by
`if existing_user and existing_user.id != user_id:`. -/
def emailConflict (db : DB) (user_id : Nat) (user_update : Schemas.UserUpdate) : Bool :=
  match user_update.email with
  | none => false
  | some e =>
      match Crud.get_user_by_email db e with
      | none => false
      | some existing => existing.id != user_id

/-- `PUT /users/{user_id}` (`main.update_user`): first, if the body carries
an email, reject it with 400 when some other row already uses it; only then
delegate to `crud.update_user`, reporting 404 on an unknown id. -/
def update_user (db : DB) (user_id : Nat) (user_update : Schemas.UserUpdate)
    (now : Nat) : Except HttpError (Schemas.User × DB) :=
  if emailConflict db user_id user_update then
    .error ⟨400, "Email already registered by another user"⟩
  else
    match Crud.update_user db user_id user_update now with
    | none => .error ⟨404, "User not found"⟩
    | some (u, db2) => .ok (u.toSchema, db2)

/-- `DELETE /users/{user_id}` (`main.delete_user`). -/
def delete_user (db : DB) (user_id : Nat) : Except HttpError (String × DB) :=
  let (success, db2) := Crud.delete_user db user_id
  if success then .ok ("User deleted successfully", db2)
  else .error ⟨404, "User not found"⟩

/-- Success payload of `POST /auth/login`. -/
structure LoginResponse where
  message : String
  user_id : Nat
  email : String
deriving DecidableEq

/-- `POST /auth/login` (`main.login`): 401 when authentication fails, 400
when the authenticated user is inactive. -/
def login (db : DB) (user_credentials : Schemas.UserCreate) :
    Except HttpError LoginResponse :=
  match Crud.authenticate_user db user_credentials.email user_credentials.password with
  | none => .error ⟨401, "Incorrect email or password"⟩
  | some user =>
      if !user.is_active then .error ⟨400, "Inactive user"⟩
      else .ok { message := "Login successful", user_id := user.id, email := user.email }

/-- `GET /users/email/{email}` (`main.get_user_by_email`). -/
def get_user_by_email (db : DB) (email : String) : Except HttpError Schemas.User :=
  match Crud.get_user_by_email db email with
  | none => .error ⟨404, "User not found"⟩
  | some u => .ok u.toSchema

end Api

/-- Well-formedness of a table state: rows are in strictly increasing
primary-key order (so ids are unique) and below the autoincrement counter.
Every state reachable from the empty store by the operations above
satisfies it. -/
def DB.WF (db : DB) : Prop :=
  db.users.Pairwise (fun u v => u.id < v.id) ∧ ∀ u ∈ db.users, u.id < db.next_id

/-! ### Supporting lemmas -/

/-- If a row with the sought id is found, the id-keyed in-place replacement
is what a subsequent lookup returns. -/
lemma find_after_replace (l : List Models.User) (uid : Nat) (u0 w : Models.User)
    (hfind : l.find? (fun v => v.id == uid) = some u0) (hw : w.id = uid) :
    (l.map (fun v => if v.id == uid then w else v)).find? (fun v => v.id == uid) = some w := by
  induction l with
  | nil => simp at hfind
  | cons a t ih =>
      by_cases ha : a.id = uid
      · simp [ha, hw]
      · rw [List.find?_cons_of_neg _ (by simpa using ha)] at hfind
        simp only [List.map_cons]
        rw [List.find?_cons_of_neg]
        · exact ih hfind
        · simp [ha]

/-- A found row satisfies the id predicate. -/
lemma found_id_eq (l : List Models.User) (uid : Nat) (u : Models.User)
    (h : l.find? (fun v => v.id == uid) = some u) : u.id = uid := by
  have := List.find?_some h
  simpa using this

/-- Characterization of a successful `crud.update_user`: the stored row is
the looked-up row with exactly the supplied fields applied (a supplied
plaintext password landing, hashed, in `hashed_password`) and the refreshed
timestamp. -/
lemma update_user_some_eq (db : DB) (uid now : Nat) (uu : Schemas.UserUpdate)
    (u0 : Models.User) (h0 : Crud.get_user_by_id db uid = some u0) :
    Crud.update_user db uid uu now =
      some ({ u0 with
              email := uu.email.getD u0.email,
              hashed_password := (uu.password.map Crud.hash_password).getD u0.hashed_password,
              is_active := uu.is_active.getD u0.is_active,
              updated_at := some now },
            { db with users := db.users.map (fun v =>
                if v.id == uid then
                  { u0 with
                    email := uu.email.getD u0.email,
                    hashed_password := (uu.password.map Crud.hash_password).getD u0.hashed_password,
                    is_active := uu.is_active.getD u0.is_active,
                    updated_at := some now }
                else v) }) := by
  unfold Crud.update_user
  rw [h0]
  rcases uu with ⟨oe, op, oa⟩
  cases oe <;> cases op <;> cases oa <;> rfl

/-- Claim C1: for every user id present in the store and every partial
update, `update_user` hashes a supplied `password` and stores the digest
under `hashed_password` (the plaintext key is dropped: the row's only
password-bearing field holds the digest), writes the other supplied fields
(`email`, `is_active`) through unchanged, and keeps fields absent from the
partial update at their prior values; the updated row is what the store
then holds under that id. -/
theorem update_user_partial_semantics
    (db : DB) (uid now : Nat) (uu : Schemas.UserUpdate)
    (u0 u1 : Models.User) (db1 : DB)
    (h0 : Crud.get_user_by_id db uid = some u0)
    (h1 : Crud.update_user db uid uu now = some (u1, db1)) :
    u1 = { u0 with
           email := uu.email.getD u0.email,
           hashed_password := (uu.password.map Crud.hash_password).getD u0.hashed_password,
           is_active := uu.is_active.getD u0.is_active,
           updated_at := some now } ∧
    Crud.get_user_by_id db1 uid = some u1 := by
  rw [update_user_some_eq db uid now uu u0 h0] at h1
  have h2 := Option.some.inj h1
  have hu := congrArg Prod.fst h2
  have hdb := congrArg Prod.snd h2
  dsimp only at hu hdb
  refine ⟨hu.symm, ?_⟩
  rw [← hdb, ← hu]
  exact find_after_replace db.users uid u0 _ h0 (found_id_eq db.users uid u0 h0)

/-- A one-row sample store. -/
def sampleUser : Models.User :=
  { id := 1, email := "a@x.com", hashed_password := "h1", is_active := true,
    created_at := 0, updated_at := none }

def sampleDB : DB := { users := [sampleUser], next_id := 2 }

/-- The sample row after updating the password to `npw` at time 5. -/
def updatedSample : Models.User :=
  { sampleUser with hashed_password := Crud.hash_password "npw", updated_at := some 5 }

def updatedSampleDB : DB := { users := [updatedSample], next_id := 2 }

theorem update_user_partial_semantics_witness :
    Crud.get_user_by_id updatedSampleDB 1 = some updatedSample :=
  (update_user_partial_semantics sampleDB 1 5 ⟨none, some "npw", none⟩
    sampleUser updatedSample updatedSampleDB rfl rfl).2

/-- Claim C2: `authenticate_user` returns absence when no user carries the
email or when verification of the plaintext against the stored hash fails,
and otherwise returns the user row with no regard for `is_active`; at the
HTTP layer, login answers 401 whenever authentication returns absence and
400 when the authenticated user is inactive. -/
theorem authenticate_and_login_statuses (db : DB) (email password : String) :
    (Crud.get_user_by_email db email = none →
      Crud.authenticate_user db email password = none) ∧
    (∀ u, Crud.get_user_by_email db email = some u →
      Crud.verify_password password u.hashed_password = false →
      Crud.authenticate_user db email password = none) ∧
    (∀ u, Crud.get_user_by_email db email = some u →
      Crud.verify_password password u.hashed_password = true →
      Crud.authenticate_user db email password = some u) ∧
    (Crud.authenticate_user db email password = none →
      Api.login db ⟨email, password⟩ = .error ⟨401, "Incorrect email or password"⟩) ∧
    (∀ u, Crud.authenticate_user db email password = some u → u.is_active = false →
      Api.login db ⟨email, password⟩ = .error ⟨400, "Inactive user"⟩) := by
  refine ⟨?_, ?_, ?_, ?_, ?_⟩
  · intro h; unfold Crud.authenticate_user; rw [h]
  · intro u h hv; unfold Crud.authenticate_user; rw [h]; simp [hv]
  · intro u h hv; unfold Crud.authenticate_user; rw [h]; simp [hv]
  · intro h; unfold Api.login; rw [h]
  · intro u h ha; unfold Api.login; rw [h]; simp [ha]

/-- An inactive sample account whose stored digest is the hash of `p1`. -/
def authUser : Models.User :=
  { id := 7, email := "b@x.com", hashed_password := Crud.hash_password "p1",
    is_active := false, created_at := 0, updated_at := none }

def authDB : DB := { users := [authUser], next_id := 8 }

set_option maxRecDepth 1000000 in
theorem authenticate_and_login_statuses_witness :
    Api.login authDB ⟨"b@x.com", "p1"⟩ = Except.error ⟨400, "Inactive user"⟩ :=
  (authenticate_and_login_statuses authDB "b@x.com" "p1").2.2.2.2 authUser
    ((authenticate_and_login_statuses authDB "b@x.com" "p1").2.2.1 authUser rfl (by decide))
    rfl

/-- Claim C3: once a user with an email has been created, creating a second
user with the same email fails with the store's uniqueness violation (the
endpoint's pre-check reports it as the 400 duplicate-email error), and
exactly one row with that email persists. -/
theorem duplicate_email_rejected (db : DB) (e p1 p2 : String) (n1 n2 : Nat)
    (u1 : Models.User) (db1 : DB)
    (h1 : Crud.create_user db ⟨e, p1⟩ n1 = .ok (u1, db1)) :
    Crud.create_user db1 ⟨e, p2⟩ n2 = .error CrudError.uniqueConstraintViolation ∧
    Api.create_user db1 ⟨e, p2⟩ n2 = .error ⟨400, "Email already registered"⟩ ∧
    (db1.users.filter (fun u => u.email == e)).length = 1 := by
  unfold Crud.create_user DB.insert at h1
  by_cases hany : db.users.any (fun u => u.email == e) = true
  · simp [hany] at h1
  · rw [Bool.not_eq_true] at hany
    simp only [hany, Bool.false_eq_true, if_false, Except.ok.injEq, Prod.mk.injEq] at h1
    obtain ⟨hu, hdb⟩ := h1
    subst hu
    subst hdb
    have hmem : ∀ u ∈ db.users, (u.email == e) = false := by
      intro u hm
      have := List.any_eq_false.mp hany u hm
      simpa using this
    have h2 : db.users.find? (fun u => u.email == e) = none := by
      rw [List.find?_eq_none]
      intro u hm
      simp [hmem u hm]
    have h3 : db.users.filter (fun u => u.email == e) = [] := by
      rw [List.filter_eq_nil_iff]
      intro u hm
      simp [hmem u hm]
    refine ⟨?_, ?_, ?_⟩
    · simp [Crud.create_user, DB.insert]
    · unfold Api.create_user
      have h4 : Crud.get_user_by_email
          { users := db.users ++
              [{ id := db.next_id, email := e, hashed_password := Crud.hash_password p1,
                 is_active := true, created_at := n1, updated_at := none }],
            next_id := db.next_id + 1 } e = some
              { id := db.next_id, email := e, hashed_password := Crud.hash_password p1,
                is_active := true, created_at := n1, updated_at := none } := by
        unfold Crud.get_user_by_email
        simp only [List.find?_append, h2]
        simp
      rw [h4]
    · simp only [List.filter_append, h3]
      simp

/-- The empty store. -/
def emptyDB : DB := { users := [], next_id := 1 }

/-- The row created for `a@x.com` with password `p1` at time 0, and the
store holding it. -/
def createdUser : Models.User :=
  { id := 1, email := "a@x.com", hashed_password := Crud.hash_password "p1",
    is_active := true, created_at := 0, updated_at := none }

def createdDB : DB := { users := [createdUser], next_id := 2 }

theorem duplicate_email_rejected_witness :
    Crud.create_user createdDB ⟨"a@x.com", "p2"⟩ 1 = .error CrudError.uniqueConstraintViolation :=
  (duplicate_email_rejected emptyDB "a@x.com" "p1" "p2" 0 1 createdUser createdDB rfl).1

/-- Claim C4: an update carrying no fields leaves `id`, `email`,
`hashed_password`, `is_active` and `created_at` unchanged and sets
`updated_at` to the present time, which is at least `created_at` (the clock
at the update is no earlier than the clock was at creation). -/
theorem empty_update_frame (db : DB) (uid now : Nat) (u0 u1 : Models.User) (db1 : DB)
    (h0 : Crud.get_user_by_id db uid = some u0)
    (h1 : Crud.update_user db uid {} now = some (u1, db1))
    (ht : u0.created_at ≤ now) :
    u1.id = u0.id ∧ u1.email = u0.email ∧ u1.hashed_password = u0.hashed_password ∧
    u1.is_active = u0.is_active ∧ u1.created_at = u0.created_at ∧
    u1.updated_at = some now ∧ ∀ t, u1.updated_at = some t → u0.created_at ≤ t := by
  rw [update_user_some_eq db uid now {} u0 h0] at h1
  have h2 := Option.some.inj h1
  have hu := congrArg Prod.fst h2
  dsimp only at hu
  rw [← hu]
  refine ⟨rfl, rfl, rfl, rfl, rfl, rfl, ?_⟩
  intro t hsome
  have : now = t := by simpa using hsome
  exact this ▸ ht

/-- The sample row after an empty update at time 3. -/
def emptyUpdatedSample : Models.User := { sampleUser with updated_at := some 3 }

theorem empty_update_frame_witness :
    emptyUpdatedSample.id = sampleUser.id ∧ emptyUpdatedSample.email = sampleUser.email ∧
    emptyUpdatedSample.hashed_password = sampleUser.hashed_password ∧
    emptyUpdatedSample.is_active = sampleUser.is_active ∧
    emptyUpdatedSample.created_at = sampleUser.created_at ∧
    emptyUpdatedSample.updated_at = some 3 ∧
    ∀ t, emptyUpdatedSample.updated_at = some t → sampleUser.created_at ≤ t :=
  empty_update_frame sampleDB 1 3 sampleUser emptyUpdatedSample
    ({ sampleDB with users := [emptyUpdatedSample] }) rfl rfl (by decide)

/-- Counterexample to claim C5 as stated: with only the user `id 1,
a@x.com` stored, `PUT /users/2` carrying email `a@x.com` targets an id that
does not exist, yet the handler answers 400 (the email pre-check runs
before the existence check), not 404. -/
theorem update_email_conflict_beats_notfound :
    Crud.get_user_by_id sampleDB 2 = none ∧
    Api.update_user sampleDB 2 ⟨some "a@x.com", none, none⟩ 5 =
      .error ⟨400, "Email already registered by another user"⟩ ∧
    Api.update_user sampleDB 2 ⟨some "a@x.com", none, none⟩ 5 ≠
      .error ⟨404, "User not found"⟩ := by
  refine ⟨rfl, rfl, fun h => ?_⟩
  have h2 : (⟨400, "Email already registered by another user"⟩ : HttpError) =
      ⟨404, "User not found"⟩ := Except.error.inj h
  exact absurd (congrArg HttpError.status h2) (by decide)

/-- Claim C5 (amended): `PUT /users/{id}` on an absent id answers 404
unless the supplied email is already used by a different existing user, in
which case the pre-check answers 400 first; and 400 is returned exactly
when the supplied email belongs to a row with a different id, whether or
not the target id exists. -/
theorem update_endpoint_status_codes (db : DB) (uid now : Nat) (uu : Schemas.UserUpdate) :
    (Crud.get_user_by_id db uid = none →
      (∀ e u, uu.email = some e → Crud.get_user_by_email db e = some u → u.id = uid) →
      Api.update_user db uid uu now = .error ⟨404, "User not found"⟩) ∧
    (Api.update_user db uid uu now = .error ⟨400, "Email already registered by another user"⟩ ↔
      ∃ e u, uu.email = some e ∧ Crud.get_user_by_email db e = some u ∧ u.id ≠ uid) := by
  have hiff : Api.emailConflict db uid uu = true ↔
      ∃ e u, uu.email = some e ∧ Crud.get_user_by_email db e = some u ∧ u.id ≠ uid := by
    unfold Api.emailConflict
    cases huu : uu.email with
    | none => simp
    | some e =>
        cases hg : Crud.get_user_by_email db e with
        | none => simp [hg]
        | some ex => simp [hg, bne_iff_ne]
  constructor
  · intro h404 hnoc
    have hc : Api.emailConflict db uid uu = false := by
      rw [Bool.eq_false_iff]
      intro hc
      obtain ⟨e, ex, he, hg, hne⟩ := hiff.mp hc
      exact hne (hnoc e ex he hg)
    have hupd : Crud.update_user db uid uu now = none := by
      unfold Crud.update_user; rw [h404]
    unfold Api.update_user
    rw [hc]
    simp [hupd]
  · rw [← hiff]
    unfold Api.update_user
    constructor
    · intro h
      by_contra hc
      rw [Bool.not_eq_true] at hc
      rw [hc] at h
      simp only [Bool.false_eq_true, if_false] at h
      cases hupd : Crud.update_user db uid uu now with
      | none => rw [hupd] at h; simp at h
      | some r => rw [hupd] at h; simp at h
    · intro hc
      rw [hc]
      simp

theorem update_endpoint_status_codes_witness :
    Api.update_user sampleDB 9 ⟨none, none, some false⟩ 5 = .error ⟨404, "User not found"⟩ :=
  (update_endpoint_status_codes sampleDB 9 5 ⟨none, none, some false⟩).1 rfl
    (fun e u he _ => by simp at he)

/-- Claim C8: `delete_user` answers true exactly when a row with the id
existed; on an unknown id it answers false and leaves the store unchanged;
the surviving rows are exactly the prior rows with a different id (so the
deleted row is removed), and a lookup of the id afterwards returns absence. -/
theorem delete_user_contract (db : DB) (uid : Nat) :
    ((Crud.delete_user db uid).1 = true ↔ ∃ u, Crud.get_user_by_id db uid = some u) ∧
    ((Crud.delete_user db uid).1 = false → (Crud.delete_user db uid).2 = db) ∧
    (∀ v, v ∈ (Crud.delete_user db uid).2.users ↔ v ∈ db.users ∧ v.id ≠ uid) ∧
    Crud.get_user_by_id (Crud.delete_user db uid).2 uid = none := by
  unfold Crud.delete_user Crud.get_user_by_id
  cases hf : db.users.find? (fun u => u.id == uid) with
  | none =>
      have hall := List.find?_eq_none.mp hf
      refine ⟨by simp, fun _ => rfl, ?_, hf⟩
      intro v
      constructor
      · intro hv
        exact ⟨hv, by simpa using hall v hv⟩
      · intro hv
        exact hv.1
  | some u =>
      refine ⟨by simp, by simp, ?_, ?_⟩
      · intro v
        simp [List.mem_filter, bne_iff_ne]
      · rw [List.find?_eq_none]
        intro x hx
        have := (List.mem_filter.mp hx).2
        simpa [bne_iff_ne] using this

theorem delete_user_contract_witness :
    (Crud.delete_user sampleDB 1).1 = true :=
  (delete_user_contract sampleDB 1).1.mpr ⟨sampleUser, rfl⟩

/-- Claim C10: login does not reveal whether an email is registered — for
an unregistered email and for a registered email with a failing password,
`authenticate_user` returns the same absence value and the endpoint
produces the identical 401 response, status and detail alike. -/
theorem login_uniform_401 (db : DB) (e1 p1 e2 p2 : String) (u : Models.User)
    (h1 : Crud.get_user_by_email db e1 = none)
    (h2 : Crud.get_user_by_email db e2 = some u)
    (h3 : Crud.verify_password p2 u.hashed_password = false) :
    Crud.authenticate_user db e1 p1 = none ∧
    Crud.authenticate_user db e2 p2 = none ∧
    Api.login db ⟨e1, p1⟩ = .error ⟨401, "Incorrect email or password"⟩ ∧
    Api.login db ⟨e2, p2⟩ = .error ⟨401, "Incorrect email or password"⟩ ∧
    Api.login db ⟨e1, p1⟩ = Api.login db ⟨e2, p2⟩ := by
  have a1 : Crud.authenticate_user db e1 p1 = none := by
    unfold Crud.authenticate_user; rw [h1]
  have a2 : Crud.authenticate_user db e2 p2 = none := by
    unfold Crud.authenticate_user; rw [h2]; simp [h3]
  have l1 : Api.login db ⟨e1, p1⟩ = .error ⟨401, "Incorrect email or password"⟩ := by
    unfold Api.login; rw [a1]
  have l2 : Api.login db ⟨e2, p2⟩ = .error ⟨401, "Incorrect email or password"⟩ := by
    unfold Api.login; rw [a2]
  exact ⟨a1, a2, l1, l2, l1.trans l2.symm⟩

set_option maxRecDepth 1000000 in
theorem login_uniform_401_witness :
    Api.login authDB ⟨"nobody@x.com", "p1"⟩ = Api.login authDB ⟨"b@x.com", "wrong"⟩ :=
  (login_uniform_401 authDB "nobody@x.com" "p1" "b@x.com" "wrong" authUser
    rfl rfl (by decide)).2.2.2.2

/-- In a well-formed store the ids are pairwise distinct. -/
lemma WF.ids_nodup (db : DB) (h : DB.WF db) : (db.users.map Models.User.id).Nodup := by
  have hp : (db.users.map Models.User.id).Pairwise (· < ·) :=
    List.pairwise_map.mpr h.1
  exact hp.imp Nat.ne_of_lt

/-- Claim C7: `get_users` returns a contiguous selection of the stored rows
in primary-key order (`skip` dropped, then `limit` taken), and the endpoint
pairs it with `total`, the full unfiltered count; the first two pages of
size 2 carry disjoint, duplicate-free id sets whose combined size is
`min 4 N`. -/
theorem pagination_contract (db : DB) (skip limit : Nat) (h : DB.WF db) :
    (Crud.get_users db skip limit).Sublist db.users ∧
    (∀ resp, Api.get_users db skip limit = .ok resp →
      resp.total = Crud.get_users_count db ∧ resp.total = db.users.length) ∧
    ((Crud.get_users db 0 2).map Models.User.id).Disjoint
      ((Crud.get_users db 2 2).map Models.User.id) ∧
    (((Crud.get_users db 0 2) ++ (Crud.get_users db 2 2)).map Models.User.id).Nodup ∧
    ((Crud.get_users db 0 2) ++ (Crud.get_users db 2 2)).length =
      min 4 db.users.length := by
  have hnd := WF.ids_nodup db h
  have hids : db.users.map Models.User.id =
      (db.users.map Models.User.id).take 2 ++ (db.users.map Models.User.id).drop 2 :=
    (List.take_append_drop 2 (db.users.map Models.User.id)).symm
  have hsplit := List.nodup_append.mp (hids ▸ hnd)
  have h1 : (Crud.get_users db 0 2).map Models.User.id =
      (db.users.map Models.User.id).take 2 := by
    unfold Crud.get_users
    rw [List.drop_zero, List.map_take]
  have h2 : (Crud.get_users db 2 2).map Models.User.id =
      ((db.users.map Models.User.id).drop 2).take 2 := by
    unfold Crud.get_users
    rw [List.map_take, List.map_drop]
  have hdisj : ((Crud.get_users db 0 2).map Models.User.id).Disjoint
      ((Crud.get_users db 2 2).map Models.User.id) := by
    rw [h1, h2]
    intro a ha hb
    exact hsplit.2.2 ha (List.mem_of_mem_take hb)
  refine ⟨?_, ?_, hdisj, ?_, ?_⟩
  · exact (List.take_sublist _ _).trans (List.drop_sublist _ _)
  · intro resp hresp
    unfold Api.get_users at hresp
    by_cases hv : (limit < 1 || 1000 < limit) = true
    · rw [if_pos hv] at hresp
      simp at hresp
    · rw [Bool.not_eq_true] at hv
      rw [hv] at hresp
      simp only [Bool.false_eq_true, if_false, Except.ok.injEq] at hresp
      rw [← hresp]
      exact ⟨rfl, rfl⟩
  · rw [List.map_append, List.nodup_append]
    refine ⟨?_, ?_, hdisj⟩
    · rw [h1]
      exact hsplit.1
    · rw [h2]
      exact hsplit.2.1.sublist (List.take_sublist _ _)
  · unfold Crud.get_users
    rw [List.length_append, List.length_take, List.length_take, List.drop_zero,
        List.length_drop]
    omega

/-- A four-row well-formed store for exercising pagination. -/
def pagUser (n : Nat) : Models.User :=
  { id := n, email := "u" ++ toString n ++ "@x.com", hashed_password := "h",
    is_active := true, created_at := 0, updated_at := none }

def pagDB : DB := { users := [pagUser 1, pagUser 2, pagUser 3, pagUser 4], next_id := 5 }

theorem pagination_contract_witness :
    ((Crud.get_users pagDB 0 2) ++ (Crud.get_users pagDB 2 2)).length =
      min 4 pagDB.users.length :=
  (pagination_contract pagDB 5 7 (by constructor <;> decide)).2.2.2.2

/-- Replace a row's stored hash (all other columns kept). -/
def scrubOne (f : String → String) (u : Models.User) : Models.User :=
  { u with hashed_password := f u.hashed_password }

/-- Replace every stored hash in the table. -/
def DB.scrubHashes (db : DB) (f : String → String) : DB :=
  { db with users := db.users.map (scrubOne f) }

/-- `find?` commutes with scrubbing for predicates blind to the hash. -/
lemma find?_scrub (l : List Models.User) (f : String → String)
    (p : Models.User → Bool) (hp : ∀ u, p (scrubOne f u) = p u) :
    (l.map (scrubOne f)).find? p = (l.find? p).map (scrubOne f) := by
  induction l with
  | nil => rfl
  | cons a t ih =>
      cases hpa : p a with
      | true => simp [List.find?_cons, hp a, hpa]
      | false => simp [List.find?_cons, hp a, hpa, ih]

/-- `any` commutes with scrubbing for predicates blind to the hash. -/
lemma any_scrub (l : List Models.User) (f : String → String)
    (p : Models.User → Bool) (hp : ∀ u, p (scrubOne f u) = p u) :
    (l.map (scrubOne f)).any p = l.any p := by
  induction l with
  | nil => rfl
  | cons a t ih => simp [List.any_cons, hp a, ih]

lemma get_user_by_id_scrub (db : DB) (f : String → String) (uid : Nat) :
    Crud.get_user_by_id (db.scrubHashes f) uid =
      (Crud.get_user_by_id db uid).map (scrubOne f) :=
  find?_scrub db.users f _ (fun _ => rfl)

lemma get_user_by_email_scrub (db : DB) (f : String → String) (e : String) :
    Crud.get_user_by_email (db.scrubHashes f) e =
      (Crud.get_user_by_email db e).map (scrubOne f) :=
  find?_scrub db.users f _ (fun _ => rfl)

/-- Claim C9: successful responses of the user endpoints are built only
from `id`, `email`, `is_active`, `created_at`, `updated_at` (the fields of
`Schemas.User`): serialization drops the hash, and replacing every stored
hash by anything leaves the response of each endpoint — create, get by
id, get by email, list, update — unchanged, so no response carries
`hashed_password` (or any password) information. -/
theorem endpoints_hide_hashed_password (db : DB) (f : String → String)
    (uid skip limit now : Nat) (e : String)
    (cu : Schemas.UserCreate) (uu : Schemas.UserUpdate) :
    (∀ m s, Models.User.toSchema { m with hashed_password := s } = Models.User.toSchema m) ∧
    Api.get_user (db.scrubHashes f) uid = Api.get_user db uid ∧
    Api.get_user_by_email (db.scrubHashes f) e = Api.get_user_by_email db e ∧
    Api.get_users (db.scrubHashes f) skip limit = Api.get_users db skip limit ∧
    (Api.create_user (db.scrubHashes f) cu now).map (fun r => r.1) =
      (Api.create_user db cu now).map (fun r => r.1) ∧
    (Api.update_user (db.scrubHashes f) uid uu now).map (fun r => r.1) =
      (Api.update_user db uid uu now).map (fun r => r.1) := by
  refine ⟨fun m s => rfl, ?_, ?_, ?_, ?_, ?_⟩
  · unfold Api.get_user
    rw [get_user_by_id_scrub]
    cases Crud.get_user_by_id db uid with
    | none => rfl
    | some u => rfl
  · unfold Api.get_user_by_email
    rw [get_user_by_email_scrub]
    cases Crud.get_user_by_email db e with
    | none => rfl
    | some u => rfl
  · unfold Api.get_users
    by_cases hv : (limit < 1 || 1000 < limit) = true
    · rw [if_pos hv, if_pos hv]
    · rw [Bool.not_eq_true] at hv
      rw [hv]
      simp only [Bool.false_eq_true, if_false, Except.ok.injEq]
      unfold Crud.get_users Crud.get_users_count DB.scrubHashes
      have hlist : List.take limit (List.drop skip (List.map (scrubOne f) db.users)) =
          List.map (scrubOne f) (List.take limit (List.drop skip db.users)) := by
        rw [← List.map_drop, ← List.map_take]
      have hcomp : Models.User.toSchema ∘ scrubOne f = Models.User.toSchema :=
        funext fun u => rfl
      dsimp only
      rw [hlist, List.map_map, List.length_map, List.length_map, hcomp]
  · unfold Api.create_user
    rw [get_user_by_email_scrub]
    cases Crud.get_user_by_email db cu.email with
    | some u => rfl
    | none =>
        unfold Crud.create_user DB.insert DB.scrubHashes
        have hany := any_scrub db.users f (fun u => u.email == cu.email) (fun _ => rfl)
        dsimp only
        rw [hany]
        cases db.users.any (fun u => u.email == cu.email) with
        | true => rfl
        | false => rfl
  · unfold Api.update_user
    have hconf : Api.emailConflict (db.scrubHashes f) uid uu = Api.emailConflict db uid uu := by
      unfold Api.emailConflict
      cases uu.email with
      | none => rfl
      | some e2 =>
          show (match Crud.get_user_by_email (db.scrubHashes f) e2 with
                | none => false
                | some existing => existing.id != uid) =
              (match Crud.get_user_by_email db e2 with
                | none => false
                | some existing => existing.id != uid)
          rw [get_user_by_email_scrub]
          cases Crud.get_user_by_email db e2 with
          | none => rfl
          | some u => rfl
    rw [hconf]
    cases hc : Api.emailConflict db uid uu with
    | true => rfl
    | false =>
        simp only [Bool.false_eq_true, if_false]
        unfold Crud.update_user
        rw [get_user_by_id_scrub]
        cases Crud.get_user_by_id db uid with
        | none => rfl
        | some u =>
            cases uu.email <;> cases uu.password <;> cases uu.is_active <;> rfl

/-! ### Password-hashing facts

`hash_password` is a function, hence deterministic.  Its digest is always
64 lowercase hex characters, so it can never equal a plaintext of any other
length; whether it can equal a 64-character hex plaintext is exactly the
question of a fixed point of the SHA-256 hex digest, which is open. -/

/-- A digest prints as exactly 64 characters. -/
lemma digestHex_length (s : Sha256.Hs) : (Sha256.digestHex s).length = 64 := by
  simp [Sha256.digestHex, Sha256.wordToHex, String.length]

lemma hash_password_length (p : String) : (Crud.hash_password p).length = 64 :=
  digestHex_length _

/-- No plaintext whose length differs from 64 equals its own digest. -/
lemma hash_password_ne_of_length (p : String) (h : p.length ≠ 64) :
    Crud.hash_password p ≠ p :=
  fun he => h (he ▸ hash_password_length p)

/-- `verify_password` succeeds exactly on the digest of the plaintext. -/
lemma verify_password_iff (plain hashed : String) :
    Crud.verify_password plain hashed = true ↔ Crud.hash_password plain = hashed := by
  simp [Crud.verify_password]

/-- A freshly created user is found under its email, stores the digest of
the supplied password, and that digest verifies. -/
lemma create_then_find_verifies (db : DB) (cu : Schemas.UserCreate) (now : Nat)
    (u1 : Models.User) (db1 : DB)
    (h : Crud.create_user db cu now = .ok (u1, db1)) :
    Crud.get_user_by_email db1 cu.email = some u1 ∧
    u1.hashed_password = Crud.hash_password cu.password ∧
    Crud.verify_password cu.password u1.hashed_password = true := by
  unfold Crud.create_user DB.insert at h
  by_cases hany : db.users.any (fun u => u.email == cu.email) = true
  · simp [hany] at h
  · rw [Bool.not_eq_true] at hany
    simp only [hany, Bool.false_eq_true, if_false, Except.ok.injEq, Prod.mk.injEq] at h
    obtain ⟨hu, hdb⟩ := h
    subst hu
    subst hdb
    refine ⟨?_, rfl, by simp [Crud.verify_password]⟩
    unfold Crud.get_user_by_email
    rw [List.find?_append]
    have h2 : db.users.find? (fun u => u.email == cu.email) = none := by
      rw [List.find?_eq_none]
      intro u hm
      simpa using List.any_eq_false.mp hany u hm
    rw [h2]
    simp

set_option maxRecDepth 1000000 in
/-- Sanity check of the embedding of `hashlib.sha256` against the standard
test vector for the empty message. -/
lemma sha256hex_empty_vector :
    Sha256.sha256hex "" =
      "e3b0c44298fc1c149afbf4c8996fb92427ae41e4649b934ca495991b7852b855" := by
  decide

set_option maxRecDepth 1000000 in
/-- Sanity check against the standard test vector for `abc`. -/
lemma sha256hex_abc_vector :
    Sha256.sha256hex "abc" =
      "ba7816bf8f01cfea414140de5dae2223b00361a396177a9cb410ff61f20015ad" := by
  decide
